import Mathlib

/-!
Verification development for the one-shot handwritten character classifier
(`src/main.py`, class `OneShotClassifier`).

Shallow embedding conventions:
* decoded images are 2D grids of booleans (`List (List Bool)`; `true` is the
  white background, `false` a black foreground pixel, matching the
  `~np.array(image, dtype=np.bool_)` foreground test in `_load_image_points`);
* pixel coordinates and error rates are rationals (an exact idealisation of
  the floating-point arithmetic of the source);
* the Euclidean geometry of `_modified_hausdorff_distance` lives in `ℝ`;
* `_classification_run` is generic in the loaded-image type and in the
  (linearly ordered) value type of the injected cost function, exactly as the
  source is generic in `f_load` / `f_cost`;
* the file system visible to one trial is a small record (directory present,
  label file present, parsed label pairs); the list of file identifiers passed
  to the loader is returned alongside the result so that "fails before any
  image load" is expressible;
* Python's `sorted` on strings is embedded as a stable insertion sort by
  code points (`sortStr`).
-/

namespace BPL

/-! ### Python `sorted` on lists of strings -/

/-- Lexicographic comparison of two strings' character lists by code point,
mirroring Python string comparison. -/
def charListLe : List Char → List Char → Bool
  | [], _ => true
  | _ :: _, [] => false
  | a :: as, b :: bs =>
    if a.toNat < b.toNat then true
    else if b.toNat < a.toNat then false
    else charListLe as bs

/-- String order used by Python's `sorted` (code-point lexicographic). -/
def strLe (a b : String) : Bool := charListLe a.data b.data

/-- Insert an element into a sorted list (Bool-valued comparison). -/
def orderedInsertB {α : Type} (le : α → α → Bool) (a : α) : List α → List α
  | [] => [a]
  | b :: l => if le a b then a :: b :: l else b :: orderedInsertB le a l

/-- Stable insertion sort with a Bool-valued comparison; on strings with
`strLe` it computes exactly Python's `sorted`. -/
def insertionSortB {α : Type} (le : α → α → Bool) : List α → List α
  | [] => []
  | a :: l => orderedInsertB le a (insertionSortB le l)

/-- Embedding of Python's `sorted` on a list of strings. -/
def sortStr (l : List String) : List String := insertionSortB strLe l

/-! ### PointSetExtractor: `_load_image_points` -/

/-- A 2D point with rational coordinates. -/
abbrev Point : Type := ℚ × ℚ

/-- An ordered collection of 2D points (the source's `[n x 2]` array). -/
abbrev PointSet : Type := List Point

/-- Row-major coordinates of the foreground (black, i.e. `false`) pixels of a
decoded image: the embedding of `np.array(np.nonzero(~image)).T` in
`_load_image_points` (src/main.py lines 71-73). -/
def imageCoords (image : List (List Bool)) : PointSet :=
  (image.enum.map (fun r =>
    r.2.enum.filterMap (fun c =>
      if c.2 then none else some ((r.1 : ℚ), (c.1 : ℚ))))).flatten

/-- Embedding of `_load_image_points` (src/main.py lines 61-74): list the
foreground pixel coordinates and subtract their per-axis mean.  On an image
with no foreground pixel the mean is degenerate but the returned list is
empty either way, exactly as `coords - coords.mean(axis=0)` on a `(0, 2)`
array. -/
def load_image_points (image : List (List Bool)) : PointSet :=
  let coords := imageCoords image
  let mean0 : ℚ := (coords.map Prod.fst).sum / (coords.length : ℚ)
  let mean1 : ℚ := (coords.map Prod.snd).sum / (coords.length : ℚ)
  coords.map (fun p => (p.1 - mean0, p.2 - mean1))

/-! ### ShapeDissimilarity: `_modified_hausdorff_distance` -/

/-- Euclidean distance between two rational points, as a real number: one
entry of `scipy.spatial.distance.cdist` (src/main.py line 87). -/
noncomputable def euclid (p q : Point) : ℝ :=
  Real.sqrt (((p.1 : ℝ) - (q.1 : ℝ)) ^ 2 + ((p.2 : ℝ) - (q.2 : ℝ)) ^ 2)

/-- Minimum of a list (`.min(axis=...)` of one row or column of a numpy
matrix); numpy raises on an empty reduction, here the default is returned. -/
def npMin {α : Type} [LinearOrder α] [Inhabited α] : List α → α
  | [] => default
  | x :: xs => xs.foldl min x

/-- Embedding of `_modified_hausdorff_distance` (src/main.py lines 76-90):
`max` of the two directed average nearest-neighbour distances. -/
noncomputable def modified_hausdorff_distance (itemA itemB : PointSet) : ℝ :=
  let min_dist_A := itemA.map (fun a => npMin (itemB.map (fun b => euclid a b)))
  let min_dist_B := itemB.map (fun b => npMin (itemA.map (fun a => euclid a b)))
  max (min_dist_A.sum / (min_dist_A.length : ℝ))
    (min_dist_B.sum / (min_dist_B.length : ℝ))

/-! ### TrialEvaluator: `_classification_run` -/

/-- Index of the first minimal entry of a list: `np.argmin` along one row
(src/main.py line 151). -/
def argminIdx {α : Type} [LinearOrder α] : List α → Nat
  | [] => 0
  | x :: xs =>
    let j := argminIdx xs
    if xs.getD j x < x then j + 1 else 0

/-- Index of the first maximal entry of a list: `np.argmax` along one row
(src/main.py line 153). -/
def argmaxIdx {α : Type} [LinearOrder α] : List α → Nat
  | [] => 0
  | x :: xs =>
    let j := argmaxIdx xs
    if x < xs.getD j x then j + 1 else 0

/-- The cost matrix of one trial (src/main.py lines 133-148): row `i` is the
image loaded from the `i`-th *sorted* query file, column `j` the image loaded
from the `j`-th *sorted* candidate answer, entry `(i, j)` the injected cost of
that pair.  Generic in the image type and in the ordered cost-value type,
exactly as the source is generic in `f_load` / `f_cost`. -/
def costMatrixOf {Img α : Type} (pairs : List (String × String))
    (f_load : String → Img) (f_cost : Img → Img → α) : List (List α) :=
  let test_images := (sortStr (pairs.map Prod.fst)).map f_load
  let train_images := (sortStr (pairs.map Prod.snd)).map f_load
  test_images.map (fun ti => train_images.map (fun tj => f_cost ti tj))

/-- What one trial sees of the file system: whether the trial's folder exists,
whether the label file exists inside it, and the parsed whitespace-separated
`(query identifier, correct candidate identifier)` pairs of the label file. -/
structure TrialFS : Type where
  dirExists : Bool
  labelFileExists : Bool
  pairs : List (String × String)

/-- Failure modes of one trial, named as in the specification's taxonomy:
`missingTrialDirectory` is the `ValueError` of src/main.py line 116,
`missingLabelFile` the `FileNotFoundError` of line 123, `labelUnpackError` the
`ValueError` that `zip(*pairs)` unpacking raises on an empty label file (line
128, outside the `try` block), and `trialExecutionError` the `RuntimeError`
wrapper of lines 165-167 (which also swallows the bad-`ftype` `ValueError` of
line 155, raised only after all images are loaded). -/
inductive RunError : Type where
  | missingTrialDirectory
  | missingLabelFile
  | labelUnpackError
  | trialExecutionError
deriving DecidableEq

/-- Embedding of `_classification_run` (src/main.py lines 92-167).  Returns
the percentage error rate (or the trial's failure) together with the list of
file identifiers that were passed to the loader, in load order, so that
"fails before attempting any image load" is observable. -/
def classification_run {Img α : Type} [LinearOrder α] (fs : TrialFS)
    (f_load : String → Img) (f_cost : Img → Img → α) (ftype : String) :
    Except RunError ℚ × List String :=
  if fs.dirExists = false then (Except.error RunError.missingTrialDirectory, [])
  else if fs.labelFileExists = false then (Except.error RunError.missingLabelFile, [])
  else if fs.pairs = [] then (Except.error RunError.labelUnpackError, [])
  else
    let test_files := fs.pairs.map Prod.fst
    let train_answers := fs.pairs.map Prod.snd
    let n_test := test_files.length
    let loads := sortStr test_files ++ sortStr train_answers
    let cost_matrix := costMatrixOf fs.pairs f_load f_cost
    if ftype = "cost" then
      let predicted_indices := cost_matrix.map argminIdx
      let correct_predictions := ((List.range n_test).filter (fun i =>
        train_answers.getD i "" ==
          (sortStr train_answers).getD (predicted_indices.getD i 0) "")).length
      (Except.ok (((n_test : ℚ) - (correct_predictions : ℚ)) / (n_test : ℚ) * 100), loads)
    else if ftype = "score" then
      let predicted_indices := cost_matrix.map argmaxIdx
      let correct_predictions := ((List.range n_test).filter (fun i =>
        train_answers.getD i "" ==
          (sortStr train_answers).getD (predicted_indices.getD i 0) "")).length
      (Except.ok (((n_test : ℚ) - (correct_predictions : ℚ)) / (n_test : ℚ) * 100), loads)
    else (Except.error RunError.trialExecutionError, loads)

/-! ### ExperimentRunner: `run_experiments` -/

/-- Value of `np.mean` over a list of rationals: `nan` (with a numpy runtime
warning) on the empty list, the arithmetic mean otherwise. -/
inductive Aggregate : Type where
  | nan
  | value (q : ℚ)
deriving DecidableEq

/-- Embedding of `np.mean` (src/main.py line 190). -/
def npMean (l : List ℚ) : Aggregate :=
  if l = [] then Aggregate.nan else Aggregate.value (l.sum / (l.length : ℚ))

/-- Embedding of `run_experiments` (src/main.py lines 169-192), abstracted
over the per-trial evaluation `trial` (the call to `_classification_run` on
folder `run{k:02d}`).  Returns the per-trial outcomes in order (successes are
printed as `[INFO]`, failures as `[ERROR]`, so both are observable) and the
aggregate `np.mean` of the successful error rates. -/
def run_experiments (nrun : Nat) (trial : Nat → Except RunError ℚ) :
    List (Nat × Except RunError ℚ) × Aggregate :=
  let outcomes := (List.range nrun).map (fun k => (k + 1, trial (k + 1)))
  let error_rates := outcomes.filterMap (fun p => p.2.toOption)
  (outcomes, npMean error_rates)

/-- The error rates of the successful trials, in trial order (the contents of
the source's `error_rates` list). -/
def successRates (nrun : Nat) (trial : Nat → Except RunError ℚ) : List ℚ :=
  (List.range nrun).filterMap (fun k => (trial (k + 1)).toOption)

/-! ### Observables used to state the claims -/

/-- The selected column for each query row under `cost` polarity: the
`predicted_indices` of src/main.py line 151. -/
def predictedIndices {Img α : Type} [LinearOrder α] (pairs : List (String × String))
    (f_load : String → Img) (f_cost : Img → Img → α) : List Nat :=
  (costMatrixOf pairs f_load f_cost).map argminIdx

/-- Whether the source's scoring loop (src/main.py lines 158-161) counts query
row `i` as correctly predicted: the raw label-file answer at position `i`
compared against the sorted answer list at the selected column for row `i`. -/
def rowJudgedCorrect {Img α : Type} [LinearOrder α] (pairs : List (String × String))
    (f_load : String → Img) (f_cost : Img → Img → α) (i : Nat) : Bool :=
  (pairs.map Prod.snd).getD i "" ==
    (sortStr (pairs.map Prod.snd)).getD
      ((predictedIndices pairs f_load f_cost).getD i 0) ""

/-- The correct candidate label that the TrialRecord (the parsed label file)
associates with query identifier `q`. -/
def recordedLabel (pairs : List (String × String)) (q : String) : String :=
  (pairs.lookup q).getD ""

/-- The stable sorted query order established before loading. -/
def sortedQueries (pairs : List (String × String)) : List String :=
  sortStr (pairs.map Prod.fst)

/-! ### Concrete instances used to exercise the definitions -/

/-- A two-line label file whose query identifiers are not listed in sorted
order (`"b"` before `"a"`): the raw line order and the sorted query order
disagree on it. -/
def unsortedTrial : List (String × String) := [("b", "Y"), ("a", "X")]

/-- A concrete injected cost on raw identifiers: query `"a"` is closest to
candidate `"Y"`, query `"b"` closest to candidate `"X"`. -/
def crossCost (q c : String) : ℤ :=
  if q = "a" then (if c = "Y" then 0 else 1)
  else (if c = "X" then 0 else 1)

/-- A concrete injected cost with a tie: query `"q1"` is at distance `0` from
both candidates, query `"q2"` prefers candidate `"c2"`. -/
def tieCost (q c : String) : ℤ :=
  if q = "q1" then 0 else (if c = "c1" then 1 else 0)

/-- A concrete batch of three trials in which trial 2 fails and trials 1 and 3
succeed with a 10% error rate. -/
def wTrial : Nat → Except RunError ℚ :=
  fun k => if k = 2 then Except.error RunError.missingTrialDirectory else Except.ok 10

theorem length_orderedInsertB {α : Type} (le : α → α → Bool) (a : α) :
    ∀ l : List α, (orderedInsertB le a l).length = l.length + 1
  | [] => rfl
  | b :: l => by
    simp only [orderedInsertB]
    split
    · simp
    · simp [length_orderedInsertB le a l]

theorem length_insertionSortB {α : Type} (le : α → α → Bool) :
    ∀ l : List α, (insertionSortB le l).length = l.length
  | [] => rfl
  | a :: l => by
    simp [insertionSortB, length_orderedInsertB, length_insertionSortB le l]

theorem sortStr_length (l : List String) : (sortStr l).length = l.length :=
  length_insertionSortB strLe l

theorem sum_map_sub_q {α : Type} (f g : α → ℚ) :
    ∀ l : List α, (l.map (fun x => f x - g x)).sum = (l.map f).sum - (l.map g).sum
  | [] => by simp
  | a :: l => by
    simp only [List.map_cons, List.sum_cons, sum_map_sub_q f g l]
    ring

theorem sum_map_const_q {α : Type} (c : ℚ) :
    ∀ l : List α, (l.map (fun _ => c)).sum = (l.length : ℚ) * c
  | [] => by simp
  | a :: l => by
    simp only [List.map_cons, List.sum_cons, sum_map_const_q c l, List.length_cons]
    push_cast
    ring

theorem argminIdx_cons {α : Type} [LinearOrder α] (x : α) (xs : List α) :
    argminIdx (x :: xs) = if xs.getD (argminIdx xs) x < x then argminIdx xs + 1 else 0 := by
  simp only [argminIdx]

theorem argmaxIdx_cons {α : Type} [LinearOrder α] (x : α) (xs : List α) :
    argmaxIdx (x :: xs) = if x < xs.getD (argmaxIdx xs) x then argmaxIdx xs + 1 else 0 := by
  simp only [argmaxIdx]

theorem argminIdx_spec {α : Type} [LinearOrder α] :
    ∀ l : List α, l ≠ [] →
    ∃ hm : argminIdx l < l.length,
      (∀ k (hk : k < l.length), l.get ⟨argminIdx l, hm⟩ ≤ l.get ⟨k, hk⟩) ∧
      (∀ k, k < argminIdx l → ∀ hk2 : k < l.length,
        l.get ⟨argminIdx l, hm⟩ < l.get ⟨k, hk2⟩)
  | [], h => absurd rfl h
  | [x], _ => by
    refine ⟨by simp [argminIdx], ?_, ?_⟩
    · intro k hk
      match k, hk with
      | 0, _ => simp [argminIdx]
    · intro k hk hk2
      simp [argminIdx] at hk
  | x :: y :: ys, _ => by
    obtain ⟨ihm, ihle, ihfirst⟩ := argminIdx_spec (y :: ys) (List.cons_ne_nil y ys)
    have hgetD : (y :: ys).getD (argminIdx (y :: ys)) x
        = (y :: ys).get ⟨argminIdx (y :: ys), ihm⟩ :=
      List.getD_eq_get _ _ ihm
    by_cases hc : (y :: ys).get ⟨argminIdx (y :: ys), ihm⟩ < x
    · have harg : argminIdx (x :: y :: ys) = argminIdx (y :: ys) + 1 := by
        rw [argminIdx_cons, hgetD, if_pos hc]
      rw [harg]
      refine ⟨Nat.succ_lt_succ ihm, ?_, ?_⟩
      · intro k hk
        match k, hk with
        | 0, _ => exact le_of_lt hc
        | n + 1, hk => exact ihle n (Nat.lt_of_succ_lt_succ hk)
      · intro k hk hk2
        match k, hk, hk2 with
        | 0, _, _ => exact hc
        | n + 1, hk, hk2 =>
          exact ihfirst n (Nat.lt_of_succ_lt_succ hk) (Nat.lt_of_succ_lt_succ hk2)
    · have harg : argminIdx (x :: y :: ys) = 0 := by
        rw [argminIdx_cons, hgetD, if_neg hc]
      rw [harg]
      refine ⟨Nat.succ_pos _, ?_, ?_⟩
      · intro k hk
        match k, hk with
        | 0, _ => exact le_refl x
        | n + 1, hk =>
          exact le_trans (not_lt.mp hc) (ihle n (Nat.lt_of_succ_lt_succ hk))
      · intro k hk hk2
        exact absurd hk (Nat.not_lt_zero k)

theorem argmaxIdx_spec {α : Type} [LinearOrder α] :
    ∀ l : List α, l ≠ [] →
    ∃ hm : argmaxIdx l < l.length,
      (∀ k (hk : k < l.length), l.get ⟨k, hk⟩ ≤ l.get ⟨argmaxIdx l, hm⟩) ∧
      (∀ k, k < argmaxIdx l → ∀ hk2 : k < l.length,
        l.get ⟨k, hk2⟩ < l.get ⟨argmaxIdx l, hm⟩)
  | [], h => absurd rfl h
  | [x], _ => by
    refine ⟨by simp [argmaxIdx], ?_, ?_⟩
    · intro k hk
      match k, hk with
      | 0, _ => simp [argmaxIdx]
    · intro k hk hk2
      simp [argmaxIdx] at hk
  | x :: y :: ys, _ => by
    obtain ⟨ihm, ihle, ihfirst⟩ := argmaxIdx_spec (y :: ys) (List.cons_ne_nil y ys)
    have hgetD : (y :: ys).getD (argmaxIdx (y :: ys)) x
        = (y :: ys).get ⟨argmaxIdx (y :: ys), ihm⟩ :=
      List.getD_eq_get _ _ ihm
    by_cases hc : x < (y :: ys).get ⟨argmaxIdx (y :: ys), ihm⟩
    · have harg : argmaxIdx (x :: y :: ys) = argmaxIdx (y :: ys) + 1 := by
        rw [argmaxIdx_cons, hgetD, if_pos hc]
      rw [harg]
      refine ⟨Nat.succ_lt_succ ihm, ?_, ?_⟩
      · intro k hk
        match k, hk with
        | 0, _ => exact le_of_lt hc
        | n + 1, hk => exact ihle n (Nat.lt_of_succ_lt_succ hk)
      · intro k hk hk2
        match k, hk, hk2 with
        | 0, _, _ => exact hc
        | n + 1, hk, hk2 =>
          exact ihfirst n (Nat.lt_of_succ_lt_succ hk) (Nat.lt_of_succ_lt_succ hk2)
    · have harg : argmaxIdx (x :: y :: ys) = 0 := by
        rw [argmaxIdx_cons, hgetD, if_neg hc]
      rw [harg]
      refine ⟨Nat.succ_pos _, ?_, ?_⟩
      · intro k hk
        match k, hk with
        | 0, _ => exact le_refl x
        | n + 1, hk =>
          exact le_trans (ihle n (Nat.lt_of_succ_lt_succ hk)) (not_lt.mp hc)
      · intro k hk hk2
        exact absurd hk (Nat.not_lt_zero k)

theorem euclid_symm (p q : Point) : euclid p q = euclid q p := by
  unfold euclid
  congr 1
  ring

theorem modified_hausdorff_distance_comm (A B : PointSet) :
    modified_hausdorff_distance A B = modified_hausdorff_distance B A := by
  unfold modified_hausdorff_distance
  have h : ∀ X Y : PointSet,
      X.map (fun a => npMin (Y.map (fun b => euclid a b)))
        = X.map (fun a => npMin (Y.map (fun b => euclid b a))) := by
    intro X Y
    apply List.map_congr_left
    intro a _
    congr 1
    apply List.map_congr_left
    intro b _
    exact euclid_symm a b
  rw [h A B, h B A]
  exact max_comm _ _

theorem costMatrixOf_length {Img α : Type} (pairs : List (String × String))
    (f_load : String → Img) (f_cost : Img → Img → α) :
    (costMatrixOf pairs f_load f_cost).length = pairs.length := by
  simp [costMatrixOf, sortStr_length]

theorem costMatrixOf_row_length {Img α : Type} (pairs : List (String × String))
    (f_load : String → Img) (f_cost : Img → Img → α) :
    ∀ row ∈ costMatrixOf pairs f_load f_cost, row.length = pairs.length := by
  intro row hrow
  simp only [costMatrixOf, List.mem_map] at hrow
  obtain ⟨ti, _, rfl⟩ := hrow
  simp [sortStr_length]

theorem sum_sub_mean {α : Type} (g : α → ℚ) (l : List α) (hn : (l.length : ℚ) ≠ 0) :
    (l.map (fun x => g x - (l.map g).sum / (l.length : ℚ))).sum = 0 := by
  rw [sum_map_sub_q, sum_map_const_q, mul_comm, div_mul_cancel₀ _ hn]
  exact sub_self _

/-- Claim C6: for all nonempty point sets `A` and `B`, the shape dissimilarity
is symmetric: `dissimilarity(A, B) = dissimilarity(B, A)`. -/
theorem dissimilarity_symm (A B : PointSet) (hA : A ≠ []) (hB : B ≠ []) :
    modified_hausdorff_distance A B = modified_hausdorff_distance B A :=
  modified_hausdorff_distance_comm A B

/-- Witness for C6 at two concrete one-point sets. -/
theorem dissimilarity_symm_witness :
    ([((0 : ℚ), (0 : ℚ))] : PointSet) ≠ [] ∧ ([((1 : ℚ), (0 : ℚ))] : PointSet) ≠ [] ∧
    modified_hausdorff_distance [((0 : ℚ), (0 : ℚ))] [((1 : ℚ), (0 : ℚ))]
      = modified_hausdorff_distance [((1 : ℚ), (0 : ℚ))] [((0 : ℚ), (0 : ℚ))] :=
  ⟨List.cons_ne_nil _ _, List.cons_ne_nil _ _,
    dissimilarity_symm _ _ (List.cons_ne_nil _ _) (List.cons_ne_nil _ _)⟩

/-- Claim C7: on every row of the dissimilarity matrix, the selection under
`cost` polarity (`argminIdx`, the embedding of `np.argmin`) picks a column
holding the row minimum and every strictly earlier column holds a strictly
larger value, so among two or more equal minimal entries the lowest column
index wins; dually, under `score` polarity (`argmaxIdx`, `np.argmax`) the
first maximal column wins. -/
theorem argmin_argmax_first_occurrence {Img α : Type} [LinearOrder α]
    (pairs : List (String × String)) (f_load : String → Img) (f_cost : Img → Img → α)
    (row : List α) (hrow : row ∈ costMatrixOf pairs f_load f_cost) (hne : row ≠ []) :
    (∃ hm : argminIdx row < row.length,
      (∀ k (hk : k < row.length), row.get ⟨argminIdx row, hm⟩ ≤ row.get ⟨k, hk⟩) ∧
      (∀ k, k < argminIdx row → ∀ hk2 : k < row.length,
        row.get ⟨argminIdx row, hm⟩ < row.get ⟨k, hk2⟩)) ∧
    (∃ hm : argmaxIdx row < row.length,
      (∀ k (hk : k < row.length), row.get ⟨k, hk⟩ ≤ row.get ⟨argmaxIdx row, hm⟩) ∧
      (∀ k, k < argmaxIdx row → ∀ hk2 : k < row.length,
        row.get ⟨k, hk2⟩ < row.get ⟨argmaxIdx row, hm⟩)) :=
  ⟨argminIdx_spec row hne, argmaxIdx_spec row hne⟩

/-- Witness for C7: the matrix of `tieCost` on a two-query trial has first row
`[0, 0]`, a tie broken in favour of column 0. -/
theorem argmin_argmax_first_occurrence_witness :
    (([0, 0] : List ℤ) ∈
        costMatrixOf [("q1", "c1"), ("q2", "c2")] (fun s : String => s) tieCost) ∧
    (([0, 0] : List ℤ) ≠ []) ∧
    ((∃ hm : argminIdx ([0, 0] : List ℤ) < ([0, 0] : List ℤ).length,
      (∀ k (hk : k < ([0, 0] : List ℤ).length),
        ([0, 0] : List ℤ).get ⟨argminIdx ([0, 0] : List ℤ), hm⟩ ≤ ([0, 0] : List ℤ).get ⟨k, hk⟩) ∧
      (∀ k, k < argminIdx ([0, 0] : List ℤ) → ∀ hk2 : k < ([0, 0] : List ℤ).length,
        ([0, 0] : List ℤ).get ⟨argminIdx ([0, 0] : List ℤ), hm⟩ < ([0, 0] : List ℤ).get ⟨k, hk2⟩)) ∧
    (∃ hm : argmaxIdx ([0, 0] : List ℤ) < ([0, 0] : List ℤ).length,
      (∀ k (hk : k < ([0, 0] : List ℤ).length),
        ([0, 0] : List ℤ).get ⟨k, hk⟩ ≤ ([0, 0] : List ℤ).get ⟨argmaxIdx ([0, 0] : List ℤ), hm⟩) ∧
      (∀ k, k < argmaxIdx ([0, 0] : List ℤ) → ∀ hk2 : k < ([0, 0] : List ℤ).length,
        ([0, 0] : List ℤ).get ⟨k, hk2⟩ < ([0, 0] : List ℤ).get ⟨argmaxIdx ([0, 0] : List ℤ), hm⟩))) :=
  ⟨by decide, by decide,
    argmin_argmax_first_occurrence [("q1", "c1"), ("q2", "c2")] (fun s : String => s)
      tieCost [0, 0] (by decide) (by decide)⟩

/-- Claim C8: a trial whose directory is missing fails with
`missingTrialDirectory`, and one whose label file is missing fails with
`missingLabelFile`, in both cases before any image load is attempted (the
load log of the run is empty). -/
theorem classification_run_fails_fast {Img α : Type} [LinearOrder α] (fs : TrialFS)
    (f_load : String → Img) (f_cost : Img → Img → α) (ftype : String) :
    (fs.dirExists = false →
      classification_run fs f_load f_cost ftype
        = (Except.error RunError.missingTrialDirectory, [])) ∧
    (fs.dirExists = true → fs.labelFileExists = false →
      classification_run fs f_load f_cost ftype
        = (Except.error RunError.missingLabelFile, [])) := by
  constructor
  · intro h
    simp [classification_run, h]
  · intro h1 h2
    simp [classification_run, h1, h2]

/-- Witness for C8 at two concrete file-system states. -/
theorem classification_run_fails_fast_witness :
    classification_run ⟨false, true, [("a", "b")]⟩ (fun s : String => s)
        (fun _ _ => (0 : ℤ)) "cost"
      = (Except.error RunError.missingTrialDirectory, []) ∧
    classification_run ⟨true, false, [("a", "b")]⟩ (fun s : String => s)
        (fun _ _ => (0 : ℤ)) "cost"
      = (Except.error RunError.missingLabelFile, []) :=
  ⟨(classification_run_fails_fast ⟨false, true, [("a", "b")]⟩ (fun s : String => s)
      (fun _ _ => (0 : ℤ)) "cost").1 rfl,
    (classification_run_fails_fast ⟨true, false, [("a", "b")]⟩ (fun s : String => s)
      (fun _ _ => (0 : ℤ)) "cost").2 rfl rfl⟩

/-- Counterexample to claim C3: on an all-background image the extractor does
not fail; it returns a `PointSet` — the empty one.  (`np.nonzero` yields no
coordinates, `coords.mean(axis=0)` only emits a runtime warning, and the
subtraction over a `(0, 2)` array returns a `(0, 2)` array.) -/
theorem load_image_points_no_empty_shape_error :
    load_image_points [[true, true], [true, true]] = [] := rfl

/-- Claim C3 as amended: on every all-background image the extractor returns
the empty point set (no `EmptyShapeError` exists in the code). -/
theorem load_image_points_all_background (image : List (List Bool))
    (h : ∀ row ∈ image, ∀ px ∈ row, px = true) :
    load_image_points image = [] := by
  have hc : imageCoords image = [] := by
    unfold imageCoords
    rw [List.flatten_eq_nil_iff]
    intro l hl
    rw [List.mem_map] at hl
    obtain ⟨r, hr, rfl⟩ := hl
    rw [List.filterMap_eq_nil_iff]
    intro c hc2
    have hcr : c.2 ∈ r.2 :=
      List.enum_map_snd r.2 ▸ List.mem_map_of_mem Prod.snd hc2
    have hr2 : r.2 ∈ image :=
      List.enum_map_snd image ▸ List.mem_map_of_mem Prod.snd hr
    have hpx := h r.2 hr2 c.2 hcr
    simp [hpx]
  simp [load_image_points, hc]

/-- Witness for the amended C3 at a concrete all-background image. -/
theorem load_image_points_all_background_witness :
    (∀ row ∈ [[true], [true, true]], ∀ px ∈ row, px = true) ∧
    load_image_points [[true], [true, true]] = [] :=
  ⟨by decide, load_image_points_all_background [[true], [true, true]] (by decide)⟩

/-- Claim C9: for every image with at least one foreground pixel, the mean of
the returned coordinates along each axis is zero (exactly, in the rational
idealisation of the floating-point arithmetic). -/
theorem load_image_points_centroid_zero (image : List (List Bool))
    (h : imageCoords image ≠ []) :
    ((load_image_points image).map Prod.fst).sum
        / ((load_image_points image).length : ℚ) = 0 ∧
    ((load_image_points image).map Prod.snd).sum
        / ((load_image_points image).length : ℚ) = 0 := by
  have hn : ((imageCoords image).length : ℚ) ≠ 0 := by
    simpa using fun h0 => h (List.length_eq_zero.mp h0)
  constructor
  · have hs : ((load_image_points image).map Prod.fst).sum = 0 := by
      unfold load_image_points
      rw [List.map_map]
      exact sum_sub_mean Prod.fst (imageCoords image) hn
    rw [hs]
    exact zero_div _
  · have hs : ((load_image_points image).map Prod.snd).sum = 0 := by
      unfold load_image_points
      rw [List.map_map]
      exact sum_sub_mean Prod.snd (imageCoords image) hn
    rw [hs]
    exact zero_div _

/-- Witness for C9 at a concrete image with two foreground pixels. -/
theorem load_image_points_centroid_zero_witness :
    imageCoords [[false, true], [true, false]] ≠ [] ∧
    ((load_image_points [[false, true], [true, false]]).map Prod.fst).sum
        / ((load_image_points [[false, true], [true, false]]).length : ℚ) = 0 ∧
    ((load_image_points [[false, true], [true, false]]).map Prod.snd).sum
        / ((load_image_points [[false, true], [true, false]]).length : ℚ) = 0 :=
  ⟨List.cons_ne_nil _ _,
    (load_image_points_centroid_zero [[false, true], [true, false]]
      (List.cons_ne_nil _ _)).1,
    (load_image_points_centroid_zero [[false, true], [true, false]]
      (List.cons_ne_nil _ _)).2⟩

/-- Counterexample to claim C2: with every one of three trials failing, the
runner's aggregate is the mean of an empty collection — numpy's `nan` — and no
`NoSuccessfulTrialsError` is raised or returned (the runner is total and has
no such outcome). -/
theorem run_experiments_all_fail_is_nan :
    (run_experiments 3 (fun _ => Except.error RunError.missingTrialDirectory)).2
      = Aggregate.nan := rfl

/-- Claim C2 as amended: whenever every trial fails, the aggregate reported by
the runner is `np.mean` of the empty list, i.e. `nan`, not an error value. -/
theorem run_experiments_all_fail_nan (nrun : Nat) (trial : Nat → Except RunError ℚ)
    (h : ∀ k, (trial k).toOption = none) :
    (run_experiments nrun trial).2 = Aggregate.nan := by
  show npMean (List.filterMap (fun p : Nat × Except RunError ℚ => p.2.toOption)
    ((List.range nrun).map (fun k => (k + 1, trial (k + 1))))) = Aggregate.nan
  rw [List.filterMap_map]
  have hnil : List.filterMap
      ((fun p : Nat × Except RunError ℚ => p.2.toOption) ∘ fun k => (k + 1, trial (k + 1)))
      (List.range nrun) = [] :=
    List.filterMap_eq_nil_iff.mpr (fun a _ => h (a + 1))
  rw [hnil]
  rfl

/-- Witness for the amended C2 at a concrete all-failing batch. -/
theorem run_experiments_all_fail_nan_witness :
    (∀ k, ((fun _ : Nat => Except.error RunError.labelUnpackError : Nat → Except RunError ℚ) k).toOption = none) ∧
    (run_experiments 2 (fun _ => Except.error RunError.labelUnpackError)).2 = Aggregate.nan :=
  ⟨fun _ => rfl, run_experiments_all_fail_nan 2 _ (fun _ => rfl)⟩

/-- Claim C5: in a batch where some trials fail, every trial's outcome
(failures included) is recorded in order, no failure aborts the batch (the
outcome list still has one entry per trial), and the aggregate is the
arithmetic mean of exactly the successful trials' error rates. -/
theorem run_experiments_partial_failure_mean (nrun : Nat)
    (trial : Nat → Except RunError ℚ)
    (hfail : ∃ k, k < nrun ∧ (trial (k + 1)).toOption = none)
    (hsucc : successRates nrun trial ≠ []) :
    (∀ k, k < nrun → (k + 1, trial (k + 1)) ∈ (run_experiments nrun trial).1) ∧
    (run_experiments nrun trial).1.length = nrun ∧
    (run_experiments nrun trial).2 = Aggregate.value
      ((successRates nrun trial).sum / ((successRates nrun trial).length : ℚ)) := by
  refine ⟨?_, ?_, ?_⟩
  · intro k hk
    exact List.mem_map_of_mem _ (List.mem_range.mpr hk)
  · simp [run_experiments]
  · show npMean (List.filterMap (fun p : Nat × Except RunError ℚ => p.2.toOption)
      ((List.range nrun).map (fun k => (k + 1, trial (k + 1))))) = _
    rw [List.filterMap_map]
    have hsr : List.filterMap
        ((fun p : Nat × Except RunError ℚ => p.2.toOption) ∘ fun k => (k + 1, trial (k + 1)))
        (List.range nrun) = successRates nrun trial := rfl
    rw [hsr, npMean, if_neg hsucc]

/-- Witness for C5: three trials, trial 2 fails, trials 1 and 3 succeed at
10%; the aggregate is the mean of the two successes. -/
theorem run_experiments_partial_failure_mean_witness :
    (∃ k, k < 3 ∧ (wTrial (k + 1)).toOption = none) ∧
    successRates 3 wTrial ≠ [] ∧
    ((∀ k, k < 3 → (k + 1, wTrial (k + 1)) ∈ (run_experiments 3 wTrial).1) ∧
      (run_experiments 3 wTrial).1.length = 3 ∧
      (run_experiments 3 wTrial).2 = Aggregate.value
        ((successRates 3 wTrial).sum / ((successRates 3 wTrial).length : ℚ))) :=
  ⟨⟨1, by decide, rfl⟩, List.cons_ne_nil _ _,
    run_experiments_partial_failure_mean 3 wTrial ⟨1, by decide, rfl⟩
      (List.cons_ne_nil _ _)⟩

/-- Counterexample to claim C1: on a label file whose lines are not in sorted
query order, the scoring loop judges row 0 (sorted query `"a"`) correct even
though the sorted ground-truth label list, indexed at the column selected for
row 0, differs from the correct label the TrialRecord records for query
`"a"`.  The code compares against `train_answers[i]` in raw line order, not
against the record of the `i`-th sorted query. -/
theorem scoring_compares_raw_order_label :
    rowJudgedCorrect unsortedTrial (fun s : String => s) crossCost 0 = true ∧
    (sortStr (unsortedTrial.map Prod.snd)).getD
        ((predictedIndices unsortedTrial (fun s : String => s) crossCost).getD 0 0) "" ≠
      recordedLabel unsortedTrial ((sortedQueries unsortedTrial).getD 0 "") := by
  decide

/-- Claim C1 as amended: query row `i` is judged correct iff the sorted
ground-truth label list, indexed at the column selected for row `i`, equals
the label recorded on the `i`-th line of the label file in raw order
(`train_answers[i]`) — which is the record of the `i`-th sorted query only
when the label file already lists queries in sorted order.  The error rate
returned by the run counts exactly these judgements. -/
theorem classification_run_cost_error_rate {Img α : Type} [LinearOrder α] (fs : TrialFS)
    (f_load : String → Img) (f_cost : Img → Img → α)
    (h1 : fs.dirExists = true) (h2 : fs.labelFileExists = true) (h3 : fs.pairs ≠ []) :
    (classification_run fs f_load f_cost "cost").1 = Except.ok
      (((fs.pairs.length : ℚ) - (((List.range fs.pairs.length).filter
          (fun i => rowJudgedCorrect fs.pairs f_load f_cost i)).length : ℚ))
        / (fs.pairs.length : ℚ) * 100) := by
  simp [classification_run, h1, h2, h3, rowJudgedCorrect, predictedIndices]

/-- Witness for the amended C1 at a concrete one-line trial. -/
theorem classification_run_cost_error_rate_witness :
    (TrialFS.mk true true [("a", "X")]).dirExists = true ∧
    (TrialFS.mk true true [("a", "X")]).labelFileExists = true ∧
    (TrialFS.mk true true [("a", "X")]).pairs ≠ [] ∧
    (classification_run ⟨true, true, [("a", "X")]⟩ (fun s : String => s)
        (fun _ _ => (0 : ℤ)) "cost").1 = Except.ok
      ((((TrialFS.mk true true [("a", "X")]).pairs.length : ℚ)
          - (((List.range (TrialFS.mk true true [("a", "X")]).pairs.length).filter
            (fun i => rowJudgedCorrect (TrialFS.mk true true [("a", "X")]).pairs
              (fun s : String => s) (fun _ _ => (0 : ℤ)) i)).length : ℚ))
        / (((TrialFS.mk true true [("a", "X")]).pairs.length : ℚ)) * 100) :=
  ⟨rfl, rfl, by decide,
    classification_run_cost_error_rate ⟨true, true, [("a", "X")]⟩ (fun s : String => s)
      (fun _ _ => (0 : ℤ)) rfl rfl (by decide)⟩

/-- Counterexample to claim C4: in a trial whose two queries share the same
candidate answer `"X"`, the first row of the dissimilarity matrix has 2
columns although the trial references only 1 distinct candidate entry —
duplicate candidate labels each get their own column. -/
theorem cost_matrix_duplicate_candidate_columns :
    ((costMatrixOf [("a", "X"), ("b", "X")] (fun s : String => s)
        (fun _ _ => (0 : ℤ))).getD 0 []).length ≠
      (([("a", "X"), ("b", "X")].map Prod.snd).dedup).length := by
  decide

/-- Claim C4 as amended: for every trial, the dissimilarity matrix has one row
per query and one column per candidate *entry* of the label file (duplicates
included), i.e. per line, not per distinct candidate. -/
theorem cost_matrix_dims {Img α : Type} (pairs : List (String × String))
    (f_load : String → Img) (f_cost : Img → Img → α) :
    (costMatrixOf pairs f_load f_cost).length = (pairs.map Prod.fst).length ∧
    ∀ row ∈ costMatrixOf pairs f_load f_cost,
      row.length = (pairs.map Prod.snd).length := by
  constructor
  · rw [costMatrixOf_length, List.length_map]
  · intro row hrow
    rw [costMatrixOf_row_length pairs f_load f_cost row hrow, List.length_map]

/-- Witness for the amended C4 at a concrete trial with a duplicated
candidate. -/
theorem cost_matrix_dims_witness :
    (([0, 0] : List ℤ) ∈ costMatrixOf [("a", "X"), ("b", "X")] (fun s : String => s)
        (fun _ _ => (0 : ℤ))) ∧
    (costMatrixOf [("a", "X"), ("b", "X")] (fun s : String => s)
        (fun _ _ => (0 : ℤ))).length = ([("a", "X"), ("b", "X")].map Prod.fst).length ∧
    ([0, 0] : List ℤ).length = ([("a", "X"), ("b", "X")].map Prod.snd).length :=
  ⟨by decide,
    (cost_matrix_dims [("a", "X"), ("b", "X")] (fun s : String => s) (fun _ _ => (0 : ℤ))).1,
    (cost_matrix_dims [("a", "X"), ("b", "X")] (fun s : String => s)
      (fun _ _ => (0 : ℤ))).2 [0, 0] (by decide)⟩

/-- Claim C10: for every trial given as parsed whitespace-separated pairs, the
cost matrix is square — one row and one column per label line, since each line
contributes exactly one query identifier and one candidate answer. -/
theorem cost_matrix_square {Img α : Type} (pairs : List (String × String))
    (f_load : String → Img) (f_cost : Img → Img → α) :
    (costMatrixOf pairs f_load f_cost).length = pairs.length ∧
    ∀ row ∈ costMatrixOf pairs f_load f_cost, row.length = pairs.length :=
  ⟨costMatrixOf_length pairs f_load f_cost, costMatrixOf_row_length pairs f_load f_cost⟩

/-- Witness for C10 at a concrete two-line trial. -/
theorem cost_matrix_square_witness :
    (([1, 2] : List ℤ) ∈ costMatrixOf [("q", "c"), ("r", "d")] (fun s : String => s)
        (fun q c => if q = "q" then (if c = "c" then 1 else 2) else 3)) ∧
    (costMatrixOf [("q", "c"), ("r", "d")] (fun s : String => s)
        (fun q c => if q = "q" then (if c = "c" then (1 : ℤ) else 2) else 3)).length = 2 ∧
    ([1, 2] : List ℤ).length = 2 :=
  ⟨by decide,
    (cost_matrix_square [("q", "c"), ("r", "d")] (fun s : String => s)
      (fun q c => if q = "q" then (if c = "c" then (1 : ℤ) else 2) else 3)).1,
    (cost_matrix_square [("q", "c"), ("r", "d")] (fun s : String => s)
      (fun q c => if q = "q" then (if c = "c" then (1 : ℤ) else 2) else 3)).2 [1, 2]
      (by decide)⟩
